import Mathlib

/-!
Shallow embedding of the rollback webhook service of this repository
(`services/rollback-webhook/src/webhook/rollback.py` and
`services/rollback-webhook/src/webhook/models.py`).

The Python code manipulates a flat `KEY=VALUE` text file (the version
store), spawns subprocesses, and builds structured response records.
The embedding makes the external world explicit: a file is a `FileState`
(absent, unreadable, or readable with its exact character content), and
the outcome of each subprocess invocation is a `ProcOutcome` supplied by
a `World` record.  Strings are modelled at character level (`List Char`)
so that line splitting and whitespace stripping behave exactly as in the
source.  All definitions are executable.
-/

namespace Rollback

/-- Character-level strings, as the Python code manipulates text. -/
abbrev Str := List Char

/-- ASCII whitespace recognised by Python's `str.strip()` (the ASCII
subset, which is all the `.env` handling code can encounter). -/
def isPySpace (c : Char) : Bool :=
  c == ' ' || c == '\t' || c == '\n' || c == '\r' || c == '\x0b' || c == '\x0c'

/-- Python `str.lstrip()`: drop leading whitespace. -/
def lstrip (s : Str) : Str :=
  s.dropWhile isPySpace

/-- Python `str.rstrip()`: drop trailing whitespace. -/
def rstrip (s : Str) : Str :=
  (s.reverse.dropWhile isPySpace).reverse

/-- Python `str.strip()`: drop leading and trailing whitespace. -/
def pyStrip (s : Str) : Str :=
  rstrip (lstrip s)

/-- One step of line splitting: extend the already split tail with one
more leading character. -/
def pyLinesStep (c : Char) : List Str → List Str
  | [] => [[c]]
  | l :: ls => if c = '\n' then [c] :: l :: ls else (c :: l) :: ls

/-- Splitting a text into lines the way Python's file iteration and
`readlines()` do: each line keeps its terminating newline; a final
fragment without a newline is kept as a last line. -/
def pyLines : Str → List Str
  | [] => []
  | c :: cs => pyLinesStep c (pyLines cs)

/-- The part of a line after its first `'='`, as computed by Python's
`line.split("=", 1)[1]`.  The source only evaluates this on lines that
are known to contain `'='` (guarded by a `startswith` check). -/
def valueAfterEq : Str → Str
  | [] => []
  | c :: cs => if c = '=' then cs else valueAfterEq cs

/-- `models.RollbackStatus`. -/
inductive RollbackStatus where
  | ROLLBACK_INITIATED
  | ROLLBACK_IN_PROGRESS
  | ROLLBACK_COMPLETED
  | ROLLBACK_FAILED
  deriving DecidableEq, Repr

/-- `models.ServiceName`. -/
inductive ServiceName where
  | ORDER_SERVICE
  | INVENTORY_SERVICE
  | PAYMENT_SERVICE
  deriving DecidableEq, Repr

/-- The `.value` of each `ServiceName` enum member. -/
def ServiceName.value : ServiceName → Str
  | .ORDER_SERVICE => "order-service".data
  | .INVENTORY_SERVICE => "inventory-service".data
  | .PAYMENT_SERVICE => "payment-service".data

/-- `RollbackExecutor._get_env_var_name`: uppercase the service value,
replace `-` with `_`, append `_VERSION`. -/
def envVarName (service : ServiceName) : Str :=
  ((service.value.map Char.toUpper).map (fun c => if c = '-' then '_' else c))
    ++ "_VERSION".data

/-- `models.RollbackRequest` (timestamps as abstract `Nat` instants,
the free-form `additional_context` as an opaque string payload). -/
structure RollbackRequest where
  service : ServiceName
  target_version : Str
  alert_id : Str
  alert_name : Option Str
  reason : Str
  triggered_at : Option Nat
  additional_context : Option Str
  deriving DecidableEq, Repr

/-- `models.RollbackResponse` (datetimes as abstract `Nat` instants). -/
structure RollbackResponse where
  status : RollbackStatus
  message : Str
  service : ServiceName
  previous_version : Option Str
  target_version : Str
  rollback_id : Str
  started_at : Nat
  completed_at : Option Nat
  error : Option Str
  trace_id : Option Str
  deriving DecidableEq, Repr

/-- State of the version-store file on disk. -/
inductive FileState where
  | absent
  | unreadable
  | readable (content : Str)
  deriving DecidableEq, Repr

/-- Outcome of one subprocess invocation: normal exit with code, stdout
and stderr; timeout (carrying the `str()` rendering of the
`TimeoutExpired` exception); or any other raised exception (carrying its
`str()` rendering). -/
inductive ProcOutcome where
  | exited (code : Int) (stdout stderr : Str)
  | timedOut (excStr : Str)
  | raised (excStr : Str)
  deriving DecidableEq, Repr

/-- The external environment one `execute_rollback` call runs against:
the version-store file, existence of the compose file, the outcome of
each subprocess the code may spawn, whether the rewrite of the store
file succeeds (and the half-applied content left behind if it raises
midway), the wall clock, and the ambient trace context. -/
structure World where
  envFile : FileState
  composeExists : Bool
  dockerInfo : ProcOutcome
  writeOk : Bool
  failedWriteContent : Str
  probe : ProcOutcome
  restartModern : ProcOutcome
  restartLegacy : ProcOutcome
  startTime : Nat
  endTime : Nat
  timestampStr : Str
  durationStr : Str
  traceId : Option Str
  deriving DecidableEq, Repr

/-- `RollbackExecutor`: configured paths plus its mutable bookkeeping
(`last_rollback`, `total_rollbacks`). -/
structure Executor where
  composeFilePath : Str
  envFilePath : Str
  lastRollback : Option RollbackResponse
  totalRollbacks : Nat
  deriving DecidableEq, Repr

/-- `RollbackExecutor.__init__` with its default arguments. -/
def Executor.init : Executor :=
  { composeFilePath := "/app/infra/docker-compose.yml".data
    envFilePath := "/app/infra/.env".data
    lastRollback := none
    totalRollbacks := 0 }

/-- `RollbackExecutor.validate_environment`: the store file must exist,
the compose file must exist, and `docker info` must exit 0 within its
timeout; a `TimeoutExpired` there is an `Exception` and lands in the
generic handler. -/
def validate_environment (ex : Executor) (w : World) : Bool × Str :=
  if w.envFile = FileState.absent then
    (false, "Environment file not found: ".data ++ ex.envFilePath)
  else if w.composeExists = false then
    (false, "Docker Compose file not found: ".data ++ ex.composeFilePath)
  else
    match w.dockerInfo with
    | .exited code _ stderr =>
        if code ≠ 0 then (false, "Docker not available: ".data ++ stderr)
        else (true, [])
    | .timedOut e => (false, "Docker not available: ".data ++ e)
    | .raised e => (false, "Docker not available: ".data ++ e)

/-- The per-line test of both `get_current_version` and
`update_service_version`: `line.strip().startswith(env_var + "=")`. -/
def lineMatches (key : Str) (l : Str) : Bool :=
  (key ++ ['=']).isPrefixOf (pyStrip l)

/-- The scan loop of `get_current_version`: first matching line wins,
its value is the text after the first `'='` of the stripped line,
stripped again. -/
def findVersion (key : Str) : List Str → Option Str
  | [] => none
  | l :: ls =>
    if lineMatches key l then some (pyStrip (valueAfterEq (pyStrip l)))
    else findVersion key ls

/-- `RollbackExecutor.get_current_version`: an unopenable or missing
file raises inside the `try`, is caught and logged, and the function
falls through to `return None`. -/
def get_current_version (file : FileState) (service : ServiceName) : Option Str :=
  match file with
  | .readable c => findVersion (envVarName service) (pyLines c)
  | .absent => none
  | .unreadable => none

/-- The replacement line `f"{env_var}={version}\n"` written by
`update_service_version`. -/
def newVersionLine (key version : Str) : Str :=
  key ++ '=' :: (version ++ ['\n'])

/-- The line-list transformation of `update_service_version`: replace
the first line matching the key, or append a fresh line when no line
matches. -/
def updateLines (key version : Str) : List Str → List Str
  | [] => [newVersionLine key version]
  | l :: ls =>
    if lineMatches key l then newVersionLine key version :: ls
    else l :: updateLines key version ls

/-- `RollbackExecutor.update_service_version`: read all lines, replace
the first matching line in place (or append), write everything back.
Opening an absent or unreadable file raises before any write, so the
file is untouched; a failing rewrite leaves the half-applied content the
interrupted `writelines` produced. -/
def update_service_version (w : World) (service : ServiceName) (version : Str) :
    Bool × World :=
  match w.envFile with
  | .readable c =>
      let newContent :=
        (updateLines (envVarName service) version (pyLines c)).flatten
      if w.writeOk then
        (true, { w with envFile := .readable newContent })
      else
        (false, { w with envFile := .readable w.failedWriteContent })
  | .absent => (false, w)
  | .unreadable => (false, w)

/-- The interpolation `f"...{service}..."` used in the restart error
messages (the string value of the `ServiceName` member). -/
def serviceStr (service : ServiceName) : Str :=
  service.value

/-- Message of the `subprocess.TimeoutExpired` handler of
`restart_service`. -/
def restartTimeoutMsg (service : ServiceName) : Str :=
  "Timeout while restarting ".data ++ serviceStr service

/-- Message of the generic `except Exception` handler of
`restart_service`. -/
def restartErrorMsg (service : ServiceName) (excStr : Str) : Str :=
  "Error restarting ".data ++ serviceStr service ++ ": ".data ++ excStr

/-- How `restart_service` maps the outcome of the actual `up -d
--no-deps` command (once a compose command has been selected) to its
`(success, message)` result. -/
def mainRestartResult (service : ServiceName) : ProcOutcome → Bool × Str
  | .exited code out err => if code = 0 then (true, out) else (false, err)
  | .timedOut _ => (false, restartTimeoutMsg service)
  | .raised m => (false, restartErrorMsg service m)

/-- `RollbackExecutor.restart_service`: probe `docker compose version`;
on exit 0 use the modern command, on non-zero exit fall back to
`docker-compose`.  The probe runs inside the same `try` as the restart,
so a probe timeout or exception is handled by the restart's own
handlers, not by the fallback. -/
def restart_service (w : World) (service : ServiceName) : Bool × Str :=
  match w.probe with
  | .exited code _ _ =>
      if code = 0 then mainRestartResult service w.restartModern
      else mainRestartResult service w.restartLegacy
  | .timedOut _ => (false, restartTimeoutMsg service)
  | .raised m => (false, restartErrorMsg service m)

/-- The `previous_version or 'unknown'` interpolation of the success
message (Python `or` treats the empty string as falsy). -/
def prevOrUnknown : Option Str → Str
  | some p => if p = [] then "unknown".data else p
  | none => "unknown".data

/-- `RollbackExecutor.execute_rollback`: validate, read the current pin,
write the target pin, restart, and build the terminal record; the
executor's `last_rollback` is set on every path and `total_rollbacks` is
incremented only on the completed path. -/
def execute_rollback (ex : Executor) (w : World) (req : RollbackRequest) :
    RollbackResponse × Executor × World :=
  let rollback_id :=
    "rb-".data ++ w.timestampStr ++ "-".data ++ req.service.value
  let started_at := w.startTime
  let v := validate_environment ex w
  if v.1 = false then
    let resp : RollbackResponse :=
      { status := .ROLLBACK_FAILED
        message := "Rollback validation failed: ".data ++ v.2
        service := req.service
        previous_version := none
        target_version := req.target_version
        rollback_id := rollback_id
        started_at := started_at
        completed_at := some w.endTime
        error := some v.2
        trace_id := w.traceId }
    (resp, { ex with lastRollback := some resp }, w)
  else
    let previous_version := get_current_version w.envFile req.service
    let u := update_service_version w req.service req.target_version
    if u.1 = false then
      let error_msg := "Failed to update .env file".data
      let resp : RollbackResponse :=
        { status := .ROLLBACK_FAILED
          message := "Rollback failed: ".data ++ error_msg
          service := req.service
          previous_version := previous_version
          target_version := req.target_version
          rollback_id := rollback_id
          started_at := started_at
          completed_at := some w.endTime
          error := some error_msg
          trace_id := w.traceId }
      (resp, { ex with lastRollback := some resp }, u.2)
    else
      let r := restart_service u.2 req.service
      if r.1 = false then
        let error_msg := "Failed to restart service: ".data ++ r.2
        let resp : RollbackResponse :=
          { status := .ROLLBACK_FAILED
            message := "Rollback failed during service restart: ".data ++ r.2
            service := req.service
            previous_version := previous_version
            target_version := req.target_version
            rollback_id := rollback_id
            started_at := started_at
            completed_at := some w.endTime
            error := some error_msg
            trace_id := w.traceId }
        (resp, { ex with lastRollback := some resp }, u.2)
      else
        let resp : RollbackResponse :=
          { status := .ROLLBACK_COMPLETED
            message :=
              "Successfully rolled back ".data ++ req.service.value
                ++ " from ".data ++ prevOrUnknown previous_version
                ++ " to ".data ++ req.target_version
                ++ " in ".data ++ w.durationStr ++ " seconds".data
            service := req.service
            previous_version := previous_version
            target_version := req.target_version
            rollback_id := rollback_id
            started_at := started_at
            completed_at := some w.endTime
            error := none
            trace_id := w.traceId }
        (resp,
         { ex with
             lastRollback := some resp
             totalRollbacks := ex.totalRollbacks + 1 },
         u.2)

/-- A sequence of `execute_rollback` calls on one executor, each call
running against its own external world; returns the final executor state
and the list of returned records. -/
def runSeq (ex : Executor) : List (RollbackRequest × World) → Executor × List RollbackResponse
  | [] => (ex, [])
  | (req, w) :: rest =>
      let step := execute_rollback ex w req
      let tail := runSeq step.2.1 rest
      (tail.1, step.1 :: tail.2)

/-- Number of records in a list whose status is `ROLLBACK_COMPLETED`. -/
def countCompleted (rs : List RollbackResponse) : Nat :=
  rs.countP (fun r => r.status = RollbackStatus.ROLLBACK_COMPLETED)

/-- The outcome of the command whose result `restart_service` ends up
normalizing: the probe's own outcome when the probe does not finish with
an exit code, otherwise the restart outcome of the compose command the
probe selected. -/
def chosenOutcome (w : World) : ProcOutcome :=
  match w.probe with
  | .exited code _ _ => if code = 0 then w.restartModern else w.restartLegacy
  | .timedOut e => .timedOut e
  | .raised m => .raised m

/-- A line that ends with the only newline it contains. -/
def NlTerm (l : Str) : Prop :=
  ∃ m, l = m ++ ['\n'] ∧ '\n' ∉ m

/-- A nonempty line whose only possible newline is its last character. -/
def GoodLine (l : Str) : Prop :=
  l ≠ [] ∧ '\n' ∉ l.dropLast

/-- A concrete rollback request used to instantiate the theorems. -/
def reqOrder : RollbackRequest :=
  { service := .ORDER_SERVICE
    target_version := "v1.0".data
    alert_id := "alert-123".data
    alert_name := some ("SLO Burn Rate".data)
    reason := "High latency".data
    triggered_at := none
    additional_context := none }

/-- A fully healthy concrete world: the store pins order-service, both
files exist, every probe succeeds and the restart exits 0. -/
def wHappy : World :=
  { envFile := .readable ("ORDER_SERVICE_VERSION=v1.1-bad\n".data)
    composeExists := true
    dockerInfo := .exited 0 [] []
    writeOk := true
    failedWriteContent := []
    probe := .exited 0 [] []
    restartModern := .exited 0 ("ok".data) []
    restartLegacy := .exited 0 ("legacy-ok".data) []
    startTime := 0
    endTime := 1
    timestampStr := "20251209-153045".data
    durationStr := "0.50".data
    traceId := none }

/-- `wHappy` with a missing version-store file. -/
def wAbsent : World :=
  { wHappy with envFile := .absent }

/-- `wHappy` except that the restart command exits non-zero with stderr
`boom`. -/
def wRestartFail : World :=
  { wHappy with restartModern := .exited 1 [] ("boom".data) }

/-- `wHappy` except that the compose version probe times out. -/
def wProbeTimeout : World :=
  { wHappy with probe := .timedOut ("Command timed out after 5 seconds".data) }

/-- `wHappy` except that the compose version probe exits non-zero. -/
def wProbeFail : World :=
  { wHappy with probe := .exited 1 [] [] }

/-- `wHappy` with an empty (but existing and readable) store file. -/
def wEmptyStore : World :=
  { wHappy with envFile := .readable [] }

/-! ### Helper lemmas: whitespace stripping -/

theorem rstrip_eq_rdropWhile (s : Str) : rstrip s = List.rdropWhile isPySpace s :=
  rfl

theorem lstrip_cons_of_not_space {a : Char} (h : ¬ isPySpace a = true) (t : Str) :
    lstrip (a :: t) = a :: t := by
  simp [lstrip, h]

theorem rstrip_concat_space {x : Char} (h : isPySpace x = true) (l : Str) :
    rstrip (l ++ [x]) = rstrip l := by
  rw [rstrip_eq_rdropWhile, rstrip_eq_rdropWhile, List.rdropWhile_concat, if_pos h]

theorem rstrip_append_of_fixed {u : Str} (hu : u ≠ []) (h : rstrip u = u) (t : Str) :
    rstrip (t ++ u) = t ++ u := by
  rw [rstrip_eq_rdropWhile] at h ⊢
  have h1 := List.rdropWhile_eq_self_iff.mp h
  refine List.rdropWhile_eq_self_iff.mpr (fun hl => ?_)
  rw [List.getLast_append_of_ne_nil hu]
  exact h1 hu

theorem strip_fixed_parts {v : Str} (h : pyStrip v = v) :
    lstrip v = v ∧ rstrip v = v := by
  have hsub : lstrip v <:+ v := List.dropWhile_suffix isPySpace
  have hpre : rstrip (lstrip v) <+: lstrip v := by
    rw [rstrip_eq_rdropWhile]; exact List.rdropWhile_prefix _ _
  have hlen1 : (pyStrip v).length ≤ (lstrip v).length := hpre.length_le
  have hlen2 : (lstrip v).length ≤ v.length := hsub.length_le
  have hlenv : (pyStrip v).length = v.length := by rw [h]
  have hl : lstrip v = v := hsub.eq_of_length (by omega)
  refine ⟨hl, ?_⟩
  have : pyStrip v = rstrip v := by rw [pyStrip, hl]
  rw [← this, h]

/-- Stripping a well-formed version-store line
`KEY=value\n` (clean value) yields `KEY=value`. -/
theorem pyStrip_newVersionLine {key v : Str} (hkey : key ≠ [])
    (hkeyc : ∀ c ∈ key, isPySpace c = false) (hv : pyStrip v = v) :
    pyStrip (newVersionLine key v) = key ++ '=' :: v := by
  obtain ⟨_, hvr⟩ := strip_fixed_parts hv
  have hline : newVersionLine key v = (key ++ '=' :: v) ++ ['\n'] := by
    simp [newVersionLine]
  obtain ⟨a, t, hk⟩ : ∃ a t, key = a :: t := by
    cases key with
    | nil => exact absurd rfl hkey
    | cons a t => exact ⟨a, t, rfl⟩
  have ha : isPySpace a = false := hkeyc a (by rw [hk]; exact List.mem_cons_self a t)
  have hls : lstrip (newVersionLine key v) = newVersionLine key v := by
    rw [hk]
    exact lstrip_cons_of_not_space (by simp [ha]) _
  rw [pyStrip, hls, hline, rstrip_concat_space (by decide)]
  cases hv0 : v with
  | nil =>
      have h2 : key ++ '=' :: ([] : Str) = key ++ ['='] := by simp
      rw [h2, rstrip_eq_rdropWhile]
      exact List.rdropWhile_concat_neg isPySpace key '=' (by decide)
  | cons b u =>
      have : key ++ '=' :: (b :: u) = (key ++ ['=']) ++ (b :: u) := by simp
      rw [this, rstrip_append_of_fixed (by simp) (by rw [← hv0, hvr]), ← hv0]

/-! ### Helper lemmas: derived keys -/

theorem envVarName_ne_nil (s : ServiceName) : envVarName s ≠ [] := by
  cases s <;> decide

theorem envVarName_not_space (s : ServiceName) :
    ∀ c ∈ envVarName s, isPySpace c = false := by
  cases s <;> decide

theorem envVarName_no_eq (s : ServiceName) : ∀ c ∈ envVarName s, c ≠ '=' := by
  cases s <;> decide

theorem envVarName_no_newline (s : ServiceName) : '\n' ∉ envVarName s := by
  intro h
  have := envVarName_not_space s '\n' h
  simp [isPySpace] at this

/-! ### Helper lemmas: value extraction -/

theorem valueAfterEq_append {key v : Str} (h : ∀ c ∈ key, c ≠ '=') :
    valueAfterEq (key ++ '=' :: v) = v := by
  induction key with
  | nil => simp [valueAfterEq]
  | cons a t ih =>
      have ha : a ≠ '=' := h a (List.mem_cons_self a t)
      simp only [List.cons_append, valueAfterEq, if_neg ha]
      exact ih (fun c hc => h c (List.mem_cons_of_mem a hc))

theorem lineMatches_newVersionLine {s : ServiceName} {v : Str} (hv : pyStrip v = v) :
    lineMatches (envVarName s) (newVersionLine (envVarName s) v) = true := by
  rw [lineMatches,
    pyStrip_newVersionLine (envVarName_ne_nil s) (envVarName_not_space s) hv]
  rw [List.isPrefixOf_iff_prefix]
  have h2 : envVarName s ++ '=' :: v = (envVarName s ++ ['=']) ++ v := by simp
  rw [h2]
  exact List.prefix_append _ _

/-- The freshly written line is matched by the scan of
`get_current_version` and yields back exactly the written value. -/
theorem findVersion_newVersionLine_cons (s : ServiceName) {v : Str}
    (hv : pyStrip v = v) (rest : List Str) :
    findVersion (envVarName s) (newVersionLine (envVarName s) v :: rest) = some v := by
  rw [findVersion, if_pos (lineMatches_newVersionLine hv),
    pyStrip_newVersionLine (envVarName_ne_nil s) (envVarName_not_space s) hv,
    valueAfterEq_append (envVarName_no_eq s), hv]

/-! ### Helper lemmas: line splitting -/

theorem NlTerm.goodLine {l : Str} (h : NlTerm l) : GoodLine l := by
  obtain ⟨m, rfl, hm⟩ := h
  exact ⟨by simp, by simpa using hm⟩

theorem pyLines_cons (c : Char) (cs : Str) :
    pyLines (c :: cs) = pyLinesStep c (pyLines cs) :=
  rfl

theorem pyLines_newline_cons (cs : Str) :
    pyLines ('\n' :: cs) = ['\n'] :: pyLines cs := by
  rw [pyLines_cons]
  cases h : pyLines cs <;> simp [pyLinesStep]

theorem pyLines_ne_nil {a : Char} {cs : Str} : pyLines (a :: cs) ≠ [] := by
  rw [pyLines_cons]
  cases h : pyLines cs with
  | nil => simp [pyLinesStep]
  | cons l ls =>
      rw [pyLinesStep]
      split <;> simp

theorem pyLines_eq_nil_iff {cs : Str} : pyLines cs = [] ↔ cs = [] := by
  cases cs with
  | nil => simp [pyLines]
  | cons a t => simpa using pyLines_ne_nil

theorem pyLines_append_term {m : Str} (hm : '\n' ∉ m) (rest : Str) :
    pyLines ((m ++ ['\n']) ++ rest) = (m ++ ['\n']) :: pyLines rest := by
  induction m with
  | nil => simpa using pyLines_newline_cons rest
  | cons a t ih =>
      have ha : a ≠ '\n' := fun h => hm (by rw [h]; exact List.mem_cons_self _ _)
      have ht : '\n' ∉ t := fun h => hm (List.mem_cons_of_mem a h)
      have h2 := ih ht
      simp only [List.cons_append] at h2 ⊢
      rw [pyLines_cons, h2]
      simp [pyLinesStep, ha]

theorem pyLines_no_newline {m : Str} (h0 : m ≠ []) (hm : '\n' ∉ m) :
    pyLines m = [m] := by
  induction m with
  | nil => exact absurd rfl h0
  | cons a t ih =>
      have ha : a ≠ '\n' := fun h => hm (by rw [h]; exact List.mem_cons_self _ _)
      cases t with
      | nil => simp [pyLines, pyLinesStep]
      | cons b u =>
          have h2 := ih (by simp) (fun h => hm (List.mem_cons_of_mem a h))
          rw [pyLines_cons, h2]
          simp [pyLinesStep, ha]

/-- Structure of a split text: all lines but the last are
newline-terminated, the last is nonempty with no interior newline, and
it is newline-terminated as well whenever the text ends in a newline. -/
theorem pyLines_shape (c : Str) :
    pyLines c = [] ∨
    ∃ L last, pyLines c = L ++ [last] ∧ (∀ l ∈ L, NlTerm l) ∧
      GoodLine last ∧ (c.getLast? = some '\n' → NlTerm last) := by
  induction c with
  | nil => exact Or.inl rfl
  | cons a cs ih =>
      right
      rcases ih with h | ⟨L, last, hL, hNl, hGood, hEnd⟩
      · have hcs : cs = [] := pyLines_eq_nil_iff.mp h
        subst hcs
        refine ⟨[], [a], by simp [pyLines, pyLinesStep], by simp, ⟨by simp, by simp⟩, ?_⟩
        intro hlast
        have : a = '\n' := by simpa using hlast
        exact ⟨[], by simp [this], by simp⟩
      · have hcs : cs ≠ [] := by
          intro h
          rw [h] at hL
          simp [pyLines] at hL
        have hlast2 : (a :: cs).getLast? = cs.getLast? := by
          cases cs with
          | nil => exact absurd rfl hcs
          | cons b u => exact List.getLast?_cons_cons
        by_cases ha : a = '\n'
        · subst ha
          refine ⟨['\n'] :: L, last, ?_, ?_, hGood, ?_⟩
          · rw [pyLines_newline_cons, hL]
            rfl
          · intro l hl
            rcases List.mem_cons.mp hl with h | h
            · exact ⟨[], by simp [h], by simp⟩
            · exact hNl l h
          · rw [hlast2]
            exact hEnd
        · cases L with
          | nil =>
              refine ⟨[], a :: last, ?_, by simp, ?_, ?_⟩
              · rw [pyLines_cons, hL]
                simp [pyLinesStep, ha]
              · refine ⟨by simp, ?_⟩
                rw [List.dropLast_cons_of_ne_nil hGood.1]
                simp only [List.mem_cons, not_or]
                exact ⟨fun h => ha h.symm, hGood.2⟩
              · intro h
                obtain ⟨m, hm1, hm2⟩ := hEnd (by rw [← hlast2]; exact h)
                refine ⟨a :: m, by rw [hm1]; rfl, ?_⟩
                simp only [List.mem_cons, not_or]
                exact ⟨fun h2 => ha h2.symm, hm2⟩
          | cons B L₂ =>
              refine ⟨(a :: B) :: L₂, last, ?_, ?_, hGood, ?_⟩
              · rw [pyLines_cons, hL]
                simp [pyLinesStep, ha]
              · intro l hl
                rcases List.mem_cons.mp hl with h | h
                · obtain ⟨m, hm1, hm2⟩ := hNl B (List.mem_cons_self _ _)
                  refine ⟨a :: m, by rw [h, hm1]; rfl, ?_⟩
                  simp only [List.mem_cons, not_or]
                  exact ⟨fun h2 => ha h2.symm, hm2⟩
                · exact hNl l (List.mem_cons_of_mem B h)
              · rw [hlast2]
                exact hEnd

theorem pyLines_nil : pyLines [] = [] :=
  rfl

theorem pyLines_term_singleton {m : Str} (hm : '\n' ∉ m) :
    pyLines (m ++ ['\n']) = [m ++ ['\n']] := by
  have h := pyLines_append_term hm []
  rwa [List.append_nil, pyLines_nil] at h

theorem pyLines_good {c : Str} : ∀ l ∈ pyLines c, GoodLine l := by
  rcases pyLines_shape c with h | ⟨L, last, hL, hNl, hGood, _⟩
  · rw [h]
    intro l hl
    simp at hl
  · rw [hL]
    intro l hl
    rcases List.mem_append.mp hl with h | h
    · exact (hNl l h).goodLine
    · rw [List.mem_singleton.mp h]
      exact hGood

theorem pyLines_dropLast_nlTerm {c : Str} : ∀ l ∈ (pyLines c).dropLast, NlTerm l := by
  rcases pyLines_shape c with h | ⟨L, last, hL, hNl, _, _⟩
  · rw [h]
    intro l hl
    simp at hl
  · rw [hL, List.dropLast_concat]
    exact hNl

theorem pyLines_all_nlTerm {c : Str} (h : c.getLast? = some '\n') :
    ∀ l ∈ pyLines c, NlTerm l := by
  rcases pyLines_shape c with h0 | ⟨L, last, hL, hNl, _, hEnd⟩
  · rw [h0]
    intro l hl
    simp at hl
  · rw [hL]
    intro l hl
    rcases List.mem_append.mp hl with hm | hm
    · exact hNl l hm
    · rw [List.mem_singleton.mp hm]
      exact hEnd h

/-! ### Round-trip core -/

/-- After the line-level rewrite of `update_service_version`,
re-splitting the flattened file and scanning it as
`get_current_version` does returns exactly the written value.  Needs a
clean value (stripping-fixed, no newline) and, when no line matches (the
append case), that every existing line is newline-terminated. -/
theorem findVersion_updateLines (s : ServiceName) {v : Str} (hv : pyStrip v = v)
    (hvn : '\n' ∉ v) :
    ∀ (L : List Str), (∀ l ∈ L, GoodLine l) → (∀ l ∈ L.dropLast, NlTerm l) →
      ((∃ l ∈ L, lineMatches (envVarName s) l = true) ∨ (∀ l ∈ L, NlTerm l)) →
      findVersion (envVarName s)
        (pyLines (updateLines (envVarName s) v L).flatten) = some v := by
  have hno : '\n' ∉ (envVarName s) ++ '=' :: v := by
    simp only [List.mem_append, List.mem_cons, not_or]
    exact ⟨envVarName_no_newline s, by decide, hvn⟩
  have hassoc : newVersionLine (envVarName s) v
      = ((envVarName s) ++ '=' :: v) ++ ['\n'] := by
    simp [newVersionLine]
  have hsingle : pyLines (newVersionLine (envVarName s) v)
      = [newVersionLine (envVarName s) v] := by
    rw [hassoc]
    exact pyLines_term_singleton hno
  intro L
  induction L with
  | nil =>
      intro _ _ _
      simp only [updateLines, List.flatten_cons, List.flatten_nil, List.append_nil]
      rw [hsingle]
      exact findVersion_newVersionLine_cons s hv _
  | cons l ls ih =>
      intro hGood hDrop hThird
      by_cases hm : lineMatches (envVarName s) l = true
      · simp only [updateLines, if_pos hm, List.flatten_cons]
        have hsplit : pyLines (newVersionLine (envVarName s) v ++ ls.flatten)
            = newVersionLine (envVarName s) v :: pyLines ls.flatten := by
          rw [hassoc]
          exact pyLines_append_term hno _
        rw [hsplit]
        exact findVersion_newVersionLine_cons s hv _
      · have hNlL : NlTerm l := by
          cases ls with
          | nil =>
              rcases hThird with ⟨l2, hl2, hm2⟩ | hAll
              · rw [List.mem_singleton.mp hl2] at hm2
                exact absurd hm2 hm
              · exact hAll l (List.mem_cons_self _ _)
          | cons b u =>
              apply hDrop
              rw [List.dropLast_cons₂]
              exact List.mem_cons_self _ _
        obtain ⟨m, hm1, hm2⟩ := hNlL
        simp only [updateLines, if_neg hm, List.flatten_cons]
        have hsplit : pyLines (l ++ (updateLines (envVarName s) v ls).flatten)
            = l :: pyLines (updateLines (envVarName s) v ls).flatten := by
          rw [hm1]
          exact pyLines_append_term hm2 _
        rw [hsplit, findVersion, if_neg hm]
        refine ih (fun l2 h2 => hGood l2 (List.mem_cons_of_mem l h2)) ?_ ?_
        · intro l2 h2
          apply hDrop
          cases ls with
          | nil => simp at h2
          | cons b u =>
              rw [List.dropLast_cons₂]
              exact List.mem_cons_of_mem l h2
        · rcases hThird with ⟨l2, hl2, hm2⟩ | hAll
          · rcases List.mem_cons.mp hl2 with h2 | h2
            · rw [h2] at hm2
              exact absurd hm2 hm
            · exact Or.inl ⟨l2, h2, hm2⟩
          · exact Or.inr (fun l2 h2 => hAll l2 (List.mem_cons_of_mem l h2))

/-! ### Helper lemmas: the executor state machine -/

theorem execute_rollback_counter (ex : Executor) (w : World) (req : RollbackRequest) :
    (execute_rollback ex w req).2.1.totalRollbacks
      = ex.totalRollbacks
        + (if (execute_rollback ex w req).1.status = RollbackStatus.ROLLBACK_COMPLETED
           then 1 else 0) := by
  by_cases hv : (validate_environment ex w).1 = false
  · simp [execute_rollback, hv]
  · by_cases hu : (update_service_version w req.service req.target_version).1 = false
    · simp [execute_rollback, hv, hu]
    · by_cases hr :
        (restart_service (update_service_version w req.service req.target_version).2
          req.service).1 = false
      · simp [execute_rollback, hv, hu, hr]
      · simp [execute_rollback, hv, hu, hr]

theorem execute_rollback_status_cases (ex : Executor) (w : World) (req : RollbackRequest) :
    (execute_rollback ex w req).1.status = RollbackStatus.ROLLBACK_COMPLETED
      ∨ (execute_rollback ex w req).1.status = RollbackStatus.ROLLBACK_FAILED := by
  by_cases hv : (validate_environment ex w).1 = false
  · simp [execute_rollback, hv]
  · by_cases hu : (update_service_version w req.service req.target_version).1 = false
    · simp [execute_rollback, hv, hu]
    · by_cases hr :
        (restart_service (update_service_version w req.service req.target_version).2
          req.service).1 = false
      · simp [execute_rollback, hv, hu, hr]
      · simp [execute_rollback, hv, hu, hr]

theorem countCompleted_cons (r : RollbackResponse) (rs : List RollbackResponse) :
    countCompleted (r :: rs)
      = countCompleted rs
        + (if r.status = RollbackStatus.ROLLBACK_COMPLETED then 1 else 0) := by
  simp [countCompleted, List.countP_cons]

theorem runSeq_counter (ex : Executor) (inputs : List (RollbackRequest × World)) :
    (runSeq ex inputs).1.totalRollbacks
      = ex.totalRollbacks + countCompleted (runSeq ex inputs).2 := by
  induction inputs generalizing ex with
  | nil => simp [runSeq, countCompleted]
  | cons p rest ih =>
      obtain ⟨req, w⟩ := p
      have h1 := ih (execute_rollback ex w req).2.1
      have h2 := execute_rollback_counter ex w req
      simp only [runSeq] at h1 ⊢
      rw [countCompleted_cons, h1, h2]
      omega

theorem findVersion_eq_find? (key : Str) (L : List Str) :
    findVersion key L
      = (L.find? (fun l => lineMatches key l)).map
          (fun l => pyStrip (valueAfterEq (pyStrip l))) := by
  induction L with
  | nil => rfl
  | cons l ls ih =>
      cases h : lineMatches key l with
      | true =>
          rw [findVersion, if_pos h, List.find?_cons_of_pos _ h]
          rfl
      | false =>
          rw [findVersion, if_neg (by simp [h]), List.find?_cons_of_neg _ (by simp [h]), ih]

theorem updateLines_decomp (key v : Str) (L : List Str) :
    (∃ L₁ l L₂, L = L₁ ++ l :: L₂ ∧ (∀ l2 ∈ L₁, lineMatches key l2 = false) ∧
        lineMatches key l = true ∧
        updateLines key v L = L₁ ++ newVersionLine key v :: L₂) ∨
    ((∀ l ∈ L, lineMatches key l = false) ∧
      updateLines key v L = L ++ [newVersionLine key v]) := by
  induction L with
  | nil =>
      right
      exact ⟨by simp, rfl⟩
  | cons l ls ih =>
      cases h : lineMatches key l with
      | true =>
          left
          exact ⟨[], l, ls, rfl, by simp, h, by simp [updateLines, h]⟩
      | false =>
          rcases ih with ⟨L₁, l2, L₂, hEq, hAll, hMatch, hUpd⟩ | ⟨hAll, hUpd⟩
          · left
            refine ⟨l :: L₁, l2, L₂, by rw [hEq]; rfl, ?_, hMatch, ?_⟩
            · intro l3 h3
              rcases List.mem_cons.mp h3 with h4 | h4
              · rw [h4]; exact h
              · exact hAll l3 h4
            · simp only [updateLines, h, Bool.false_eq_true, if_false, hUpd,
                List.cons_append]
          · right
            refine ⟨?_, ?_⟩
            · intro l3 h3
              rcases List.mem_cons.mp h3 with h4 | h4
              · rw [h4]; exact h
              · exact hAll l3 h4
            · simp only [updateLines, h, Bool.false_eq_true, if_false, hUpd,
                List.cons_append]

/-! ### Claim theorems -/

/-- C2: if environment validation fails (store file missing, compose
file missing, or the orchestrator probe failing), `execute_rollback`
returns a FAILED record and the version-store file is byte-for-byte
unchanged; in particular no file is created when the store is absent. -/
theorem C2_validation_failure_preserves_store (ex : Executor) (w : World)
    (req : RollbackRequest) (h : (validate_environment ex w).1 = false) :
    (execute_rollback ex w req).1.status = RollbackStatus.ROLLBACK_FAILED ∧
    (execute_rollback ex w req).2.2.envFile = w.envFile := by
  constructor <;> simp [execute_rollback, h]

/-- Witness for C2: concrete run against an absent store file. -/
theorem C2_witness :
    (validate_environment Executor.init wAbsent).1 = false ∧
    (execute_rollback Executor.init wAbsent reqOrder).1.status
        = RollbackStatus.ROLLBACK_FAILED ∧
    (execute_rollback Executor.init wAbsent reqOrder).2.2.envFile = FileState.absent := by
  have h := C2_validation_failure_preserves_store Executor.init wAbsent reqOrder (by decide)
  exact ⟨by decide, h.1, by rw [h.2]; rfl⟩

/-- C3: across any sequence of `execute_rollback` calls, the
`total_rollbacks` counter equals exactly the number of calls that
returned COMPLETED: it is bumped exactly once on each COMPLETED path and
never on a FAILED path. -/
theorem C3_success_counter (inputs : List (RollbackRequest × World)) :
    (runSeq Executor.init inputs).1.totalRollbacks
      = countCompleted (runSeq Executor.init inputs).2 ∧
    ∀ (ex : Executor) (w : World) (req : RollbackRequest),
      (execute_rollback ex w req).2.1.totalRollbacks
        = ex.totalRollbacks
          + (if (execute_rollback ex w req).1.status = RollbackStatus.ROLLBACK_COMPLETED
             then 1 else 0) := by
  refine ⟨?_, execute_rollback_counter⟩
  have h := runSeq_counter Executor.init inputs
  simpa [Executor.init] using h

/-- C7: every record returned by `execute_rollback` carries status
COMPLETED or FAILED; the INITIATED and IN_PROGRESS members of the status
enumeration are never returned. -/
theorem C7_terminal_status_only (ex : Executor) (w : World) (req : RollbackRequest) :
    ((execute_rollback ex w req).1.status = RollbackStatus.ROLLBACK_COMPLETED
      ∨ (execute_rollback ex w req).1.status = RollbackStatus.ROLLBACK_FAILED) ∧
    (execute_rollback ex w req).1.status ≠ RollbackStatus.ROLLBACK_INITIATED ∧
    (execute_rollback ex w req).1.status ≠ RollbackStatus.ROLLBACK_IN_PROGRESS := by
  refine ⟨execute_rollback_status_cases ex w req, ?_, ?_⟩ <;>
    rcases execute_rollback_status_cases ex w req with h | h <;> simp [h]

/-- C9: every record returned by `execute_rollback`, on the COMPLETED
path and on each FAILED path, has a non-null `completed_at` timestamp,
even though the field is declared optional. -/
theorem C9_completed_at_always_set (ex : Executor) (w : World) (req : RollbackRequest) :
    ((execute_rollback ex w req).1.completed_at).isSome = true := by
  by_cases hv : (validate_environment ex w).1 = false
  · simp [execute_rollback, hv]
  · by_cases hu : (update_service_version w req.service req.target_version).1 = false
    · simp [execute_rollback, hv, hu]
    · by_cases hr :
        (restart_service (update_service_version w req.service req.target_version).2
          req.service).1 = false
      · simp [execute_rollback, hv, hu, hr]
      · simp [execute_rollback, hv, hu, hr]

/-- C6: `restart_service` never raises and its result is fully
determined by the outcome of the selected compose command (with the
probe's own timeout or exception handled by the same handlers): exit 0
gives `(true, stdout)`, non-zero exit gives `(false, stderr)`, timeout
gives `(false, timeout message)`, and any other exception gives
`(false, error message)`. -/
theorem C6_restart_normalized (w : World) (s : ServiceName) :
    restart_service w s = mainRestartResult s (chosenOutcome w) ∧
    (∀ out err, chosenOutcome w = ProcOutcome.exited 0 out err →
      restart_service w s = (true, out)) ∧
    (∀ k out err, chosenOutcome w = ProcOutcome.exited k out err → k ≠ 0 →
      restart_service w s = (false, err)) ∧
    (∀ e, chosenOutcome w = ProcOutcome.timedOut e →
      restart_service w s = (false, restartTimeoutMsg s)) ∧
    (∀ m, chosenOutcome w = ProcOutcome.raised m →
      restart_service w s = (false, restartErrorMsg s m)) := by
  have hmain : restart_service w s = mainRestartResult s (chosenOutcome w) := by
    cases hp : w.probe with
    | exited code out err =>
        simp only [restart_service, chosenOutcome, hp]
        split <;> rfl
    | timedOut e => simp [restart_service, chosenOutcome, hp, mainRestartResult]
    | raised m => simp [restart_service, chosenOutcome, hp, mainRestartResult]
  refine ⟨hmain, ?_, ?_, ?_, ?_⟩
  · intro out err h
    rw [hmain, h]
    simp [mainRestartResult]
  · intro k out err h hk
    rw [hmain, h]
    simp [mainRestartResult, hk]
  · intro e h
    rw [hmain, h]
    rfl
  · intro m h
    rw [hmain, h]
    rfl

/-- Witness for C6: concrete instantiations of the exit-0 and timeout
branches. -/
theorem C6_witness :
    restart_service wHappy ServiceName.ORDER_SERVICE = (true, "ok".data) ∧
    restart_service wProbeTimeout ServiceName.ORDER_SERVICE
      = (false, restartTimeoutMsg ServiceName.ORDER_SERVICE) :=
  ⟨(C6_restart_normalized wHappy ServiceName.ORDER_SERVICE).2.1 ("ok".data) [] (by decide),
   (C6_restart_normalized wProbeTimeout ServiceName.ORDER_SERVICE).2.2.2.1
     ("Command timed out after 5 seconds".data) (by decide)⟩

/-- C8: `get_current_version` returns the whitespace-trimmed value of
the first line whose trimmed prefix matches the derived key followed by
a `'='`, and returns `none` instead of raising when the file is absent,
cannot be opened, or has no matching line. -/
theorem C8_read_semantics (s : ServiceName) :
    get_current_version FileState.absent s = none ∧
    get_current_version FileState.unreadable s = none ∧
    ∀ c, get_current_version (FileState.readable c) s
      = ((pyLines c).find? (fun l => lineMatches (envVarName s) l)).map
          (fun l => pyStrip (valueAfterEq (pyStrip l))) := by
  refine ⟨rfl, rfl, fun c => ?_⟩
  exact findVersion_eq_find? _ _

/-- C10: a successful `update_service_version` rewrites only the first
line matching the service's key, keeping every other line unchanged and
in original order, and appends exactly one new line at the end when no
line matches. -/
theorem C10_update_frame (w : World) (s : ServiceName) (v : Str) (c : Str)
    (hfile : w.envFile = FileState.readable c) (hwr : w.writeOk = true) :
    (update_service_version w s v).1 = true ∧
    (update_service_version w s v).2.envFile
      = FileState.readable (updateLines (envVarName s) v (pyLines c)).flatten ∧
    ((∃ L₁ l L₂, pyLines c = L₁ ++ l :: L₂ ∧
        (∀ l2 ∈ L₁, lineMatches (envVarName s) l2 = false) ∧
        lineMatches (envVarName s) l = true ∧
        updateLines (envVarName s) v (pyLines c)
          = L₁ ++ newVersionLine (envVarName s) v :: L₂) ∨
      ((∀ l ∈ pyLines c, lineMatches (envVarName s) l = false) ∧
        updateLines (envVarName s) v (pyLines c)
          = pyLines c ++ [newVersionLine (envVarName s) v])) := by
  refine ⟨?_, ?_, updateLines_decomp _ _ _⟩ <;>
    simp [update_service_version, hfile, hwr]

/-- Witness for C10: updating the pinned order-service version in a
concrete store rewrites exactly the matching line. -/
theorem C10_witness :
    (update_service_version wHappy ServiceName.ORDER_SERVICE ("v1.0".data)).1 = true ∧
    (update_service_version wHappy ServiceName.ORDER_SERVICE ("v1.0".data)).2.envFile
      = FileState.readable ("ORDER_SERVICE_VERSION=v1.0\n".data) := by
  have h := C10_update_frame wHappy ServiceName.ORDER_SERVICE ("v1.0".data)
    ("ORDER_SERVICE_VERSION=v1.1-bad\n".data) rfl rfl
  refine ⟨h.1, ?_⟩
  rw [h.2.1]
  decide


/-- C4 counterexample: with the compose version probe timing out and a
legacy command that would succeed, `restart_service` does not fall back
to the legacy command name: the whole restart attempt fails with a
synthesized timeout message. -/
theorem C4_counterexample :
    restart_service wProbeTimeout ServiceName.ORDER_SERVICE
        = (false, restartTimeoutMsg ServiceName.ORDER_SERVICE) ∧
    mainRestartResult ServiceName.ORDER_SERVICE wProbeTimeout.restartLegacy
        = (true, "legacy-ok".data) ∧
    restart_service wProbeTimeout ServiceName.ORDER_SERVICE
        ≠ mainRestartResult ServiceName.ORDER_SERVICE wProbeTimeout.restartLegacy := by
  decide

/-- C4 (amended): the fallback to the legacy `docker-compose` command
happens only when the probe exits non-zero; when the probe times out,
the restart attempt fails with a synthesized timeout message instead
(the probe runs inside the same `try` as the restart itself). -/
theorem C4_fallback_amended (w : World) (s : ServiceName) :
    (∀ code pout perr, w.probe = ProcOutcome.exited code pout perr → code ≠ 0 →
      restart_service w s = mainRestartResult s w.restartLegacy) ∧
    (∀ e, w.probe = ProcOutcome.timedOut e →
      restart_service w s = (false, restartTimeoutMsg s)) := by
  constructor
  · intro code pout perr h hc
    simp [restart_service, h, hc]
  · intro e h
    simp [restart_service, h]

/-- Witness for C4 (amended): concrete probe-failure and probe-timeout
worlds. -/
theorem C4_witness :
    restart_service wProbeFail ServiceName.ORDER_SERVICE
        = mainRestartResult ServiceName.ORDER_SERVICE wProbeFail.restartLegacy ∧
    restart_service wProbeTimeout ServiceName.ORDER_SERVICE
        = (false, restartTimeoutMsg ServiceName.ORDER_SERVICE) :=
  ⟨(C4_fallback_amended wProbeFail ServiceName.ORDER_SERVICE).1 1 [] [] rfl (by decide),
   (C4_fallback_amended wProbeTimeout ServiceName.ORDER_SERVICE).2
     ("Command timed out after 5 seconds".data) rfl⟩

/-- C5 counterexample: writing the version `" v2.3"` (leading space)
into an empty store and reading it back yields the stripped `"v2.3"`,
not the written string, so the round-trip does not hold for every
version string. -/
theorem C5_counterexample :
    (update_service_version wEmptyStore ServiceName.ORDER_SERVICE (" v2.3".data)).1
        = true ∧
    get_current_version
        (update_service_version wEmptyStore ServiceName.ORDER_SERVICE
          (" v2.3".data)).2.envFile ServiceName.ORDER_SERVICE
      = some ("v2.3".data) ∧
    some ("v2.3".data) ≠ some (" v2.3".data) := by
  decide

/-- C5 (amended): the write/read round-trip holds for every service and
every clean version string (fixed under stripping, no newline) whenever
the store file is readable and writable and is empty, ends with a
newline, or already contains a matching key line (without the last
condition a file whose final line is unterminated would fuse with the
appended line). -/
theorem C5_roundtrip_amended (w : World) (s : ServiceName) (c v : Str)
    (hfile : w.envFile = FileState.readable c) (hwr : w.writeOk = true)
    (hv : pyStrip v = v) (hvn : '\n' ∉ v)
    (hform : c = [] ∨ c.getLast? = some '\n'
      ∨ ∃ l ∈ pyLines c, lineMatches (envVarName s) l = true) :
    (update_service_version w s v).1 = true ∧
    get_current_version (update_service_version w s v).2.envFile s = some v := by
  have hupd : (update_service_version w s v).2.envFile
      = FileState.readable (updateLines (envVarName s) v (pyLines c)).flatten := by
    simp [update_service_version, hfile, hwr]
  refine ⟨by simp [update_service_version, hfile, hwr], ?_⟩
  rw [hupd]
  show findVersion (envVarName s)
      (pyLines (updateLines (envVarName s) v (pyLines c)).flatten) = some v
  refine findVersion_updateLines s hv hvn (pyLines c) pyLines_good
    pyLines_dropLast_nlTerm ?_
  rcases hform with h | h | h
  · rw [h]
    exact Or.inr (fun l hl => absurd hl (by simp [pyLines]))
  · exact Or.inr (pyLines_all_nlTerm h)
  · exact Or.inl h

/-- Witness for C5 (amended): concrete round-trip through the healthy
store. -/
theorem C5_witness :
    (update_service_version wHappy ServiceName.ORDER_SERVICE ("v1.0".data)).1 = true ∧
    get_current_version
        (update_service_version wHappy ServiceName.ORDER_SERVICE ("v1.0".data)).2.envFile
        ServiceName.ORDER_SERVICE = some ("v1.0".data) :=
  C5_roundtrip_amended wHappy ServiceName.ORDER_SERVICE
    ("ORDER_SERVICE_VERSION=v1.1-bad\n".data) ("v1.0".data) rfl rfl
    (by decide) (by decide) (by decide)


/-- C1 counterexample: with a valid environment, a successful store
write and a restart exiting non-zero with stderr `boom`, the returned
record's `error` is the prefixed message `Failed to restart service:
boom`, not the bare stderr, so the claim's "error is the restart's
stderr" is false as stated. -/
theorem C1_counterexample :
    (execute_rollback Executor.init wRestartFail reqOrder).1.status
        = RollbackStatus.ROLLBACK_FAILED ∧
    (execute_rollback Executor.init wRestartFail reqOrder).1.error
        = some ("Failed to restart service: boom".data) ∧
    (execute_rollback Executor.init wRestartFail reqOrder).1.error
        ≠ some ("boom".data) := by
  decide

/-- C1 (amended): when validation passes, the store write succeeds and
the restart command exits non-zero, `execute_rollback` returns a FAILED
record whose `error` is the restart's stderr prefixed with
`Failed to restart service: `; the store file has already been
rewritten with the target version and no compensating write-back is
performed, so for clean target versions and well-formed stores the
service's key reads back as the target. -/
theorem C1_restart_failure_amended (ex : Executor) (w : World) (req : RollbackRequest)
    (c : Str) (hfile : w.envFile = FileState.readable c)
    (hval : (validate_environment ex w).1 = true) (hwr : w.writeOk = true)
    (pc : Int) (pout perr : Str) (hprobe : w.probe = ProcOutcome.exited pc pout perr)
    (k : Int) (rout rerr : Str)
    (hrun : (if pc = 0 then w.restartModern else w.restartLegacy)
        = ProcOutcome.exited k rout rerr)
    (hk : k ≠ 0) :
    (execute_rollback ex w req).1.status = RollbackStatus.ROLLBACK_FAILED ∧
    (execute_rollback ex w req).1.error
      = some ("Failed to restart service: ".data ++ rerr) ∧
    (execute_rollback ex w req).2.2.envFile
      = FileState.readable
          (updateLines (envVarName req.service) req.target_version (pyLines c)).flatten ∧
    (pyStrip req.target_version = req.target_version → '\n' ∉ req.target_version →
      (c = [] ∨ c.getLast? = some '\n'
        ∨ ∃ l ∈ pyLines c, lineMatches (envVarName req.service) l = true) →
      get_current_version (execute_rollback ex w req).2.2.envFile req.service
        = some req.target_version) := by
  have hvneg : ¬ (validate_environment ex w).1 = false := by simp [hval]
  have hu1 : (update_service_version w req.service req.target_version).1 = true := by
    simp [update_service_version, hfile, hwr]
  have huneg : ¬ (update_service_version w req.service req.target_version).1 = false := by
    simp [hu1]
  have hu2 : (update_service_version w req.service req.target_version).2.envFile
      = FileState.readable
          (updateLines (envVarName req.service) req.target_version (pyLines c)).flatten := by
    simp [update_service_version, hfile, hwr]
  have huw : (update_service_version w req.service req.target_version).2.probe = w.probe
      ∧ (update_service_version w req.service req.target_version).2.restartModern
          = w.restartModern
      ∧ (update_service_version w req.service req.target_version).2.restartLegacy
          = w.restartLegacy := by
    refine ⟨?_, ?_, ?_⟩ <;> simp [update_service_version, hfile, hwr]
  have hrs : restart_service (update_service_version w req.service req.target_version).2
      req.service = (false, rerr) := by
    simp only [restart_service, huw.1, hprobe]
    by_cases hpc : pc = 0
    · rw [if_pos hpc] at hrun
      rw [if_pos hpc, huw.2.1, hrun]
      simp [mainRestartResult, hk]
    · rw [if_neg hpc] at hrun
      rw [if_neg hpc, huw.2.2, hrun]
      simp [mainRestartResult, hk]
  have hrs1 : (restart_service (update_service_version w req.service req.target_version).2
      req.service).1 = false := by rw [hrs]
  have henv : (execute_rollback ex w req).2.2
      = (update_service_version w req.service req.target_version).2 := by
    simp [execute_rollback, hvneg, huneg, hrs1]
  refine ⟨?_, ?_, ?_, ?_⟩
  · simp [execute_rollback, hvneg, huneg, hrs1]
  · simp [execute_rollback, hvneg, huneg, hrs1, hrs]
  · rw [henv, hu2]
  · intro h1 h2 h3
    rw [henv, hu2]
    show findVersion (envVarName req.service)
        (pyLines (updateLines (envVarName req.service) req.target_version
          (pyLines c)).flatten) = some req.target_version
    refine findVersion_updateLines req.service h1 h2 (pyLines c) pyLines_good
      pyLines_dropLast_nlTerm ?_
    rcases h3 with h | h | h
    · rw [h]
      exact Or.inr (fun l hl => absurd hl (by simp [pyLines]))
    · exact Or.inr (pyLines_all_nlTerm h)
    · exact Or.inl h

/-- Witness for C1 (amended): concrete restart-failure world; the store
pin has already moved to the target version. -/
theorem C1_witness :
    (execute_rollback Executor.init wRestartFail reqOrder).1.status
        = RollbackStatus.ROLLBACK_FAILED ∧
    (execute_rollback Executor.init wRestartFail reqOrder).1.error
        = some ("Failed to restart service: ".data ++ "boom".data) ∧
    get_current_version
        (execute_rollback Executor.init wRestartFail reqOrder).2.2.envFile
        ServiceName.ORDER_SERVICE = some ("v1.0".data) := by
  have h := C1_restart_failure_amended Executor.init wRestartFail reqOrder
    ("ORDER_SERVICE_VERSION=v1.1-bad\n".data) rfl (by decide) rfl
    0 [] [] rfl 1 [] ("boom".data) (by decide) (by decide)
  exact ⟨h.1, h.2.1, h.2.2.2 (by decide) (by decide) (by decide)⟩

end Rollback
